import Mathlib

/-!
Verification of the medication-reminder core of `functions/index.js`
(enfermeiro-digital): the schedule matcher, the dispatcher tick
(`checkMedicationReminders`), the reply interpreter
(`handleWhatsAppWebhook`) and the clock/calendar adapter.

The Firestore collections are embedded as Lean lists, server timestamps
as a `now : Nat` parameter, freshly generated document ids as a
`freshId`/`nextId` counter, and the Twilio gateway as an oracle
`Nat → SendResult`.  Side effects are recorded in an ordered event
trace so that commit/delivery ordering can be stated.
-/

namespace EnfermeiroDigital

/-- A patient record (`idosos` collection). -/
structure Idoso where
  id : String
  nome : String
  whatsapp : String
deriving Repr, DecidableEq

/-- A medication record (`medicamentos` collection). -/
structure Medicamento where
  id : String
  idosoId : String
  nome : String
  dosagem : String
  ativo : Bool
  diasDaSemana : List Nat
  horarios : List String
  desativadoEm : Option Nat := none
deriving Repr, DecidableEq

/-- A reminder-ledger entry (`lembretes_status` collection). -/
structure Lembrete where
  id : Nat
  medicamentoId : String
  idosoId : String
  dataHora : Nat
  status : String
  tentativas : Nat
  horarioOriginal : String
  twilioSid : Option String := none
  twilioStatus : Option String := none
  ultimaResposta : Option Nat := none
  respostaRecebida : Option String := none
  adiadoPor : Option Nat := none
  erro : Option String := none
deriving Repr, DecidableEq

/-- The document store: the three collections the core touches. -/
structure DB where
  idosos : List Idoso
  medicamentos : List Medicamento
  lembretes : List Lembrete
deriving Repr, DecidableEq

/-- Outcome of one Twilio `messages.create` call, as returned by
`sendWhatsAppMessage` (which catches all gateway errors). -/
inductive SendResult where
  | ok (sid status : String)
  | fail (error : String)
deriving Repr, DecidableEq

/-- One observable side effect, in execution order. -/
inductive Event where
  /-- The `batch.commit()` of the tick's new ledger entries. -/
  | ledgerBatchSet (ids : List Nat)
  /-- a single-document `update` on a ledger entry. -/
  | ledgerUpdate (id : Nat)
  /-- a `set` creating one ledger document. -/
  | ledgerSet (id : Nat)
  /-- The `batch.commit()` updating medication documents. -/
  | medsBatchUpdate (ids : List String)
  /-- one outbound WhatsApp message. -/
  | send (dest : String) (body : String)
deriving Repr, DecidableEq

/-- Whether an event is an outbound message. -/
def Event.isSend : Event → Bool
  | .send _ _ => true
  | _ => false

/-! ## Clock/calendar adapter

`getCurrentDayOfWeek` calls
`new Date().toLocaleDateString('en-US', { timeZone: ..., weekday: 'numeric' })`.
Per ECMA-402 (CreateDateTimeFormat / GetOption), the `weekday` option
admits exactly the values `"narrow"`, `"short"`, `"long"`; any other
value makes the formatter constructor throw a `RangeError`. -/

/-- The values ECMA-402 admits for the `weekday` date-time component. -/
def validWeekdayValues : List String := ["narrow", "short", "long"]

/-- Modelled from the ECMA-402 standard (the host JavaScript runtime, not
part of this repository): `GetOption` for the `weekday` component returns
the value when admissible and throws a `RangeError` otherwise. -/
def getOptionWeekday (v : String) : Except String String :=
  if validWeekdayValues.contains v then Except.ok v else Except.error "RangeError"

/-- Modelled from the ECMA-402 standard: `toLocaleDateString` with a
`weekday` option first validates the option and only then formats the
current instant (`fmt` abstracts the locale/calendar lookup). -/
def toLocaleDateStringWeekday (weekdayOpt : String) (fmt : String → String) :
    Except String String :=
  match getOptionWeekday weekdayOpt with
  | .error e => .error e
  | .ok v => .ok (fmt v)

/-- The source's `getCurrentDayOfWeek`: it requests the weekday with
the option value `'numeric'`. -/
def getCurrentDayOfWeek (fmt : String → String) : Except String String :=
  toLocaleDateStringWeekday "numeric" fmt

/-! ## Schedule matcher -/

/-- JavaScript `s.substring(0, 5)`: the first five characters. -/
def substr05 (s : String) : String := String.mk (s.data.take 5)

/-- The per-medication firing test of the dispatcher loop: the current
day must be in `diasDaSemana`, and some entry of `horarios`, truncated
to `HH:MM`, must equal the current time string. -/
def isDue (m : Medicamento) (currentDay : Nat) (currentTime : String) : Bool :=
  m.diasDaSemana.contains currentDay &&
    m.horarios.any (fun h => substr05 h == currentTime)

/-! ## Reminder ledger -/

/-- First ledger entry with the given document id. -/
def findLembrete (ls : List Lembrete) (i : Nat) : Option Lembrete :=
  ls.find? (fun l => l.id == i)

/-- Update every ledger document with the given id (Firestore ids are
unique, so at most one document is affected in a well-formed store). -/
def updateLembreteById (ls : List Lembrete) (i : Nat) (f : Lembrete → Lembrete) :
    List Lembrete :=
  ls.map (fun l => if l.id == i then f l else l)

/-- The webhook's pending-reminder query: documents of the patient with
status `'enviado'`, ordered by `dataHora` descending, limited to one.
Embedded as the maximum-`dataHora` such entry (head of the list wins
ties, matching an arbitrary but single query result). -/
def latestPending : List Lembrete → String → Option Lembrete
  | [], _ => none
  | l :: rest, pid =>
    if l.idosoId == pid && l.status == "enviado" then
      match latestPending rest pid with
      | none => some l
      | some m => if m.dataHora > l.dataHora then some m else some l
    else latestPending rest pid

/-! ## Reply interpreter (`handleWhatsAppWebhook`) -/

/-- Replace the first occurrence of `pat` (as a character list),
scanning left to right. -/
def replaceFirstAux (pat rep : List Char) : List Char → List Char
  | [] => if pat.isEmpty then rep else []
  | c :: cs =>
    if pat.isPrefixOf (c :: cs) then rep ++ (c :: cs).drop pat.length
    else c :: replaceFirstAux pat rep cs

/-- JavaScript `s.replace(pat, rep)` with a string pattern replaces the
first occurrence only. -/
def replaceFirst (s pat rep : String) : String :=
  String.mk (replaceFirstAux pat.data rep.data s.data)

/-- JavaScript `s.trim()`: strip leading and trailing whitespace. -/
def jsTrim (s : String) : String :=
  String.mk (((s.data.dropWhile Char.isWhitespace).reverse.dropWhile Char.isWhitespace).reverse)

/-- JavaScript `s.toLowerCase()` on the alphabet the webhook compares
against (`"sair"`). -/
def jsToLower (s : String) : String := String.mk (s.data.map Char.toLower)

/-- The sender decode `From?.replace('whatsapp:', '') || ''`. -/
def normalizePhone (f : Option String) : String :=
  match f with
  | some s => replaceFirst s "whatsapp:" ""
  | none => ""

/-- The body decode `Body?.trim() || ''`. -/
def normalizeBody (b : Option String) : String :=
  match b with
  | some s => jsTrim s
  | none => ""

/-- The patient lookup: `where('whatsapp', '==', q)`, first document. -/
def findIdosoByPhone (idosos : List Idoso) (q : String) : Option Idoso :=
  idosos.find? (fun i => i.whatsapp == q)

/-- The code map: 1 to 'tomou', 2 to 'nao_tomou', 3 to 'adiado'. -/
def statusMap (m : String) : String :=
  if m == "1" then "tomou" else if m == "2" then "nao_tomou" else "adiado"

/-- The fixed per-code confirmation texts. -/
def confirmationMessage (nome m : String) : String :=
  if m == "1" then
    "Perfeito, " ++ nome ++ "! ✔ Registramos que você tomou o medicamento."
  else if m == "2" then
    "Entendido. Foi registrado que o medicamento não foi tomado."
  else
    "Ok, vamos lembrar de novo em 10 minutos — responda 1 quando tomar :)"

/-- The fixed unrecognized-input help text. -/
def helpMessage : String :=
  "Resposta não reconhecida. Responda:\n1 - Tomei\n2 - Não tomei\n3 - Adiar\nOu envie \"SAIR\" para parar."

/-- The opt-out confirmation text. -/
def optOutMessage (nome : String) : String :=
  nome ++ ", os lembretes foram interrompidos conforme solicitado."

/-- The reply-driven transition on a pending entry: new status, a
response-received server timestamp, and the raw response code. -/
def applyTransition (l : Lembrete) (newStatus m : String) (now : Nat) : Lembrete :=
  { l with status := newStatus, ultimaResposta := some now, respostaRecebida := some m }

/-- The postponed entry created on reply `'3'`: carries forward the
original `medicamentoId` and `horarioOriginal`, delay 10, attempt 1. -/
def mkPostponed (orig : Lembrete) (pid : String) (freshId now : Nat) : Lembrete :=
  { id := freshId, medicamentoId := orig.medicamentoId, idosoId := pid,
    dataHora := now, status := "agendado_adiado", tentativas := 1,
    horarioOriginal := orig.horarioOriginal, adiadoPor := some 10 }

/-- The opt-out batch: every active medication of the patient gets
`ativo := false` and a deactivation timestamp; commits atomically. -/
def deactivateMeds (ms : List Medicamento) (pid : String) (now : Nat) :
    List Medicamento :=
  ms.map (fun m =>
    if m.idosoId == pid && m.ativo then
      { m with ativo := false, desativadoEm := some now }
    else m)

/-- Result of one webhook invocation: new store contents, the ordered
side-effect trace, and the JSON `success` flag. -/
structure WebhookResult where
  db : DB
  events : List Event
  ok : Bool
deriving Repr, DecidableEq

/-- The webhook body once the patient is resolved: the three-code
branch, the `'sair'` branch, and the help fallback. -/
def handleKnown (db : DB) (idoso : Idoso) (phoneNumber message : String)
    (now freshId : Nat) : WebhookResult :=
  if ["1", "2", "3"].contains message then
    let afterLedger : DB × List Event :=
      match latestPending db.lembretes idoso.id with
      | none => (db, [])
      | some l =>
        let ls1 := updateLembreteById db.lembretes l.id
          (fun x => applyTransition x (statusMap message) message now)
        if message == "3" then
          let np := mkPostponed l idoso.id freshId now
          ({ db with lembretes := ls1 ++ [np] },
           [Event.ledgerUpdate l.id, Event.ledgerSet np.id])
        else
          ({ db with lembretes := ls1 }, [Event.ledgerUpdate l.id])
    { db := afterLedger.1,
      events := afterLedger.2 ++
        [Event.send phoneNumber (confirmationMessage idoso.nome message)],
      ok := true }
  else if jsToLower message == "sair" then
    { db := { db with medicamentos := deactivateMeds db.medicamentos idoso.id now },
      events :=
        [Event.medsBatchUpdate
           ((db.medicamentos.filter (fun m => m.idosoId == idoso.id && m.ativo)).map
             (fun m => m.id)),
         Event.send phoneNumber (optOutMessage idoso.nome)],
      ok := true }
  else
    { db := db, events := [Event.send phoneNumber helpMessage], ok := true }

/-- The webhook `handleWhatsAppWebhook`: decode the request, resolve the patient,
then dispatch on the trimmed body. -/
def handleWhatsAppWebhook (db : DB) (reqFrom reqBody : Option String)
    (now freshId : Nat) : WebhookResult :=
  match findIdosoByPhone db.idosos (replaceFirst (normalizePhone reqFrom) "+55" "") with
  | none => { db := db, events := [], ok := false }
  | some idoso =>
    handleKnown db idoso (normalizePhone reqFrom) (normalizeBody reqBody) now freshId

/-! ## Dispatcher tick (`checkMedicationReminders`) -/

/-- The reminder body rendered for a due medication. -/
def createReminderMessage (nomeIdoso medicacao dosagem : String) : String :=
  "Olá, " ++ nomeIdoso ++ " 👋 — Hora do remédio " ++ medicacao ++ " (" ++
    dosagem ++ "). Responda: 1) ✅ Tomei 2) ❌ Não tomei 3) ⏳ Adiar 10 min."

/-- A `get`-by-id on the `idosos` collection. -/
def findIdosoById (idosos : List Idoso) (iid : String) : Option Idoso :=
  idosos.find? (fun i => i.id == iid)

/-- The fresh ledger entry the tick creates for one due medication. -/
def mkLembreteStatus (m : Medicamento) (pid : String) (docId now : Nat)
    (currentTime : String) : Lembrete :=
  { id := docId, medicamentoId := m.id, idosoId := pid, dataHora := now,
    status := "enviado", tentativas := 1, horarioOriginal := currentTime }

/-- A queued delivery: the patient, the medication, and the entry that
was batched for it. -/
structure PendingSend where
  idoso : Idoso
  medicamento : Medicamento
  lembrete : Lembrete
deriving Repr, DecidableEq

/-- Phase 1 of the tick: walk the active medications, keep those due
now whose patient exists, and stage one fresh ledger entry each
(document ids drawn from the `nextId` counter). -/
def collectReminders (idosos : List Idoso) (currentDay : Nat) (currentTime : String)
    (now : Nat) : List Medicamento → Nat → List PendingSend
  | [], _ => []
  | m :: rest, nextId =>
    if m.ativo && isDue m currentDay currentTime then
      match findIdosoById idosos m.idosoId with
      | none => collectReminders idosos currentDay currentTime now rest nextId
      | some idoso =>
        { idoso := idoso, medicamento := m,
          lembrete := mkLembreteStatus m idoso.id nextId now currentTime } ::
          collectReminders idosos currentDay currentTime now rest (nextId + 1)
    else
      collectReminders idosos currentDay currentTime now rest nextId

/-- The staged entries of one tick. -/
def tickCollect (db : DB) (currentDay : Nat) (currentTime : String)
    (now nextId : Nat) : List PendingSend :=
  collectReminders db.idosos currentDay currentTime now db.medicamentos nextId

/-- The store right after the tick's `batch.commit()`, before any
delivery attempt. -/
def tickCommitState (db : DB) (currentDay : Nat) (currentTime : String)
    (now nextId : Nat) : DB :=
  { db with lembretes :=
      db.lembretes ++ List.map (fun r => r.lembrete) (tickCollect db currentDay currentTime now nextId) }

/-- The outcome recording: success stores the gateway id and
status, failure stores status `'erro'` and the error detail. -/
def applyOutcome (l : Lembrete) : SendResult → Lembrete
  | .ok sid st => { l with twilioSid := some sid, twilioStatus := some st }
  | .fail e => { l with status := "erro", erro := some e }

/-- Phase 2 of the tick: for each staged reminder, send the rendered
message and record the outcome on its ledger entry; the loop continues
past failures because `sendWhatsAppMessage` returns them as values. -/
def deliverReminders (res : Nat → SendResult) :
    DB → List PendingSend → DB × List Event
  | db, [] => (db, [])
  | db, r :: rest =>
    let msg := createReminderMessage r.idoso.nome r.medicamento.nome
      r.medicamento.dosagem
    let db1 : DB :=
      { db with lembretes :=
          updateLembreteById db.lembretes r.lembrete.id (fun x => applyOutcome x (res r.lembrete.id)) }
    let rec2 := deliverReminders res db1 rest
    (rec2.1, Event.send r.idoso.whatsapp msg :: Event.ledgerUpdate r.lembrete.id ::
      rec2.2)

/-- One full dispatcher tick, given the already-resolved day and time:
stage entries, commit them in one batch, then attempt the deliveries. -/
def checkMedicationReminders (db : DB) (currentDay : Nat) (currentTime : String)
    (now nextId : Nat) (res : Nat → SendResult) : DB × List Event :=
  let rs := tickCollect db currentDay currentTime now nextId
  if rs.isEmpty then (db, [])
  else
    let rec2 := deliverReminders res (tickCommitState db currentDay currentTime now nextId) rs
    (rec2.1, Event.ledgerBatchSet (rs.map (fun r => r.lembrete.id)) :: rec2.2)

/-! ## Example data used by the witnesses -/

/-- A sample patient. -/
def exIdoso : Idoso := { id := "i1", nome := "Maria", whatsapp := "11999990000" }

/-- A sample medication firing Mon/Wed/Fri at 09:00. -/
def exMed : Medicamento :=
  { id := "m1", idosoId := "i1", nome := "Losartana", dosagem := "50mg",
    ativo := true, diasDaSemana := [1, 3, 5], horarios := ["09:00"] }

/-- A sample pending ledger entry for `exIdoso`. -/
def exLemb : Lembrete :=
  { id := 1, medicamentoId := "m1", idosoId := "i1", dataHora := 100,
    status := "enviado", tentativas := 1, horarioOriginal := "09:00" }

/-- A sample store. -/
def exDB : DB := { idosos := [exIdoso], medicamentos := [exMed], lembretes := [exLemb] }

/-- A newer pending entry for the same patient. -/
def exLemb2 : Lembrete := { exLemb with id := 2, dataHora := 300 }

/-- A ledger with two pending entries and one answered one. -/
def exLedger : List Lembrete :=
  [exLemb, exLemb2, { exLemb with id := 3, dataHora := 200, status := "tomou" }]

/-- A store whose only ledger entry is already answered. -/
def exDBNoPending : DB :=
  { idosos := [exIdoso], medicamentos := [exMed],
    lembretes := [{ exLemb with status := "tomou" }] }

/-! ## C2: the schedule matcher is exact string matching at minute granularity -/

/-- Truncating an `HH:MM` string (five characters) to five characters is
the identity. -/
theorem substr05_eq_self (s : String) (h : s.length = 5) : substr05 s = s := by
  have hd : s.data.length ≤ 5 := le_of_eq h
  cases s with
  | mk data =>
    simp only [substr05]
    congr 1
    exact List.take_of_length_le hd

/-- C2: for every medication whose time-of-day entries are `HH:MM`
strings (five characters, the granularity the data model prescribes),
`isDue` holds iff the current day is in the weekday set and the current
time string is exactly one of the entries — string equality at minute
granularity with no tolerance window. -/
theorem isDue_minute_exact (m : Medicamento) (currentDay : Nat) (currentTime : String)
    (h5 : ∀ h ∈ m.horarios, h.length = 5) :
    isDue m currentDay currentTime = true ↔
      currentDay ∈ m.diasDaSemana ∧ currentTime ∈ m.horarios := by
  unfold isDue
  constructor
  · intro h
    have h' := Bool.and_eq_true_iff.mp h
    refine ⟨List.elem_iff.mp h'.1, ?_⟩
    rcases List.any_eq_true.mp h'.2 with ⟨x, hx, hbeq⟩
    rw [substr05_eq_self x (h5 x hx), beq_iff_eq] at hbeq
    exact hbeq ▸ hx
  · rintro ⟨h1, h2⟩
    refine Bool.and_eq_true_iff.mpr ⟨List.elem_iff.mpr h1, List.any_eq_true.mpr ⟨currentTime, h2, ?_⟩⟩
    rw [substr05_eq_self currentTime (h5 _ h2)]
    exact beq_self_eq_true _

/-- Witness for C2: on the sample medication (days `{1,3,5}`, time
`"09:00"`), day 3 at `"09:00"` fires, and `"09:01"` does not match. -/
theorem isDue_minute_exact_witness :
    isDue exMed 3 "09:00" = true ∧ isDue exMed 1 "09:01" = false := by
  constructor
  · exact (isDue_minute_exact exMed 3 "09:00" (by decide)).mpr (by decide)
  · have h := isDue_minute_exact exMed 1 "09:01" (by decide)
    have hne : ¬(isDue exMed 1 "09:01" = true) := fun hb => absurd (h.mp hb) (by decide)
    exact Bool.eq_false_iff.mpr hne

/-! ## C4: `latestPending` returns the single most recent pending entry -/

/-- C4: the pending-reminder query returns `none` exactly when the
patient has no entry in status `'enviado'`; otherwise it returns a single
entry, which is a pending entry of that patient whose creation timestamp
is maximal among the patient's pending entries (most recent wins). -/
theorem latestPending_correct (ls : List Lembrete) (pid : String) :
    (latestPending ls pid = none ↔
      ∀ l ∈ ls, ¬(l.idosoId = pid ∧ l.status = "enviado")) ∧
    (∀ l, latestPending ls pid = some l →
      l ∈ ls ∧ l.idosoId = pid ∧ l.status = "enviado" ∧
        ∀ m ∈ ls, m.idosoId = pid → m.status = "enviado" →
          m.dataHora ≤ l.dataHora) := by
  induction ls with
  | nil => simp [latestPending]
  | cons x rest ih =>
    rcases ih with ⟨ih1, ih2⟩
    by_cases hx : x.idosoId = pid ∧ x.status = "enviado"
    · have hcond : (x.idosoId == pid && x.status == "enviado") = true := by
        rw [Bool.and_eq_true_iff, beq_iff_eq, beq_iff_eq]; exact hx
      cases hr : latestPending rest pid with
      | none =>
        have hnone := ih1.mp hr
        constructor
        · constructor
          · intro habs
            rw [latestPending, hcond, if_pos rfl, hr] at habs
            exact Option.noConfusion habs
          · intro hall
            exact absurd hx (hall x (List.mem_cons_self x rest))
        · intro l hl
          rw [latestPending, hcond, if_pos rfl, hr] at hl
          obtain rfl : x = l := Option.some.inj hl
          refine ⟨List.mem_cons_self x rest, hx.1, hx.2, ?_⟩
          intro m hm hmp hms
          rcases List.mem_cons.mp hm with rfl | hm'
          · exact le_refl _
          · exact absurd ⟨hmp, hms⟩ (hnone m hm')
      | some m0 =>
        obtain ⟨hm0mem, hm0p, hm0s, hm0max⟩ := ih2 m0 hr
        constructor
        · constructor
          · intro habs
            rw [latestPending, hcond, if_pos rfl, hr] at habs
            have habs' : (if m0.dataHora > x.dataHora then some m0 else some x) = none := habs
            by_cases hgt : m0.dataHora > x.dataHora
            · rw [if_pos hgt] at habs'; exact Option.noConfusion habs'
            · rw [if_neg hgt] at habs'; exact Option.noConfusion habs'
          · intro hall
            exact absurd hx (hall x (List.mem_cons_self x rest))
        · intro l hl0
          rw [latestPending, hcond, if_pos rfl, hr] at hl0
          have hl : (if m0.dataHora > x.dataHora then some m0 else some x) = some l := hl0
          by_cases hgt : m0.dataHora > x.dataHora
          · rw [if_pos hgt] at hl
            obtain rfl : m0 = l := Option.some.inj hl
            refine ⟨List.mem_cons_of_mem x hm0mem, hm0p, hm0s, ?_⟩
            intro m hm hmp hms
            rcases List.mem_cons.mp hm with rfl | hm'
            · exact le_of_lt hgt
            · exact hm0max m hm' hmp hms
          · rw [if_neg hgt] at hl
            obtain rfl : x = l := Option.some.inj hl
            refine ⟨List.mem_cons_self x rest, hx.1, hx.2, ?_⟩
            intro m hm hmp hms
            rcases List.mem_cons.mp hm with rfl | hm'
            · exact le_refl _
            · exact le_trans (hm0max m hm' hmp hms) (Nat.le_of_not_lt hgt)
    · have hcond : (x.idosoId == pid && x.status == "enviado") = false := by
        rw [Bool.and_eq_false_iff]
        by_cases h1 : x.idosoId = pid
        · right
          rcases Bool.eq_false_iff.mpr (fun hb => hx ⟨h1, beq_iff_eq.mp hb⟩) with h
          exact h
        · left
          exact Bool.eq_false_iff.mpr (fun hb => h1 (beq_iff_eq.mp hb))
      have hstep : latestPending (x :: rest) pid = latestPending rest pid := by
        rw [latestPending, hcond]
        simp
      constructor
      · rw [hstep, ih1]
        constructor
        · intro hall
          intro l hl
          rcases List.mem_cons.mp hl with rfl | hl'
          · exact hx
          · exact hall l hl'
        · intro hall l hl
          exact hall l (List.mem_cons_of_mem x hl)
      · intro l hl
        rw [hstep] at hl
        obtain ⟨hmem, hp, hs, hmax⟩ := ih2 l hl
        refine ⟨List.mem_cons_of_mem x hmem, hp, hs, ?_⟩
        intro m hm hmp hms
        rcases List.mem_cons.mp hm with rfl | hm'
        · exact absurd ⟨hmp, hms⟩ hx
        · exact hmax m hm' hmp hms

/-- Witness for C4: on a concrete three-entry ledger the query returns
the most recent pending entry, which is pending and maximal. -/
theorem latestPending_correct_witness :
    exLemb2 ∈ exLedger ∧ exLemb2.idosoId = "i1" ∧ exLemb2.status = "enviado" ∧
      ∀ m ∈ exLedger, m.idosoId = "i1" → m.status = "enviado" →
        m.dataHora ≤ exLemb2.dataHora :=
  (latestPending_correct exLedger "i1").2 exLemb2 rfl

/-! ## Ledger helper lemmas -/

/-- A result of the pending query is a pending entry of the patient. -/
theorem latestPending_mem {ls : List Lembrete} {pid : String} {l : Lembrete}
    (h : latestPending ls pid = some l) :
    l ∈ ls ∧ l.idosoId = pid ∧ l.status = "enviado" := by
  induction ls with
  | nil => simp [latestPending] at h
  | cons x rest ih =>
    by_cases hc : (x.idosoId == pid && x.status == "enviado") = true
    · have hxp : x.idosoId = pid ∧ x.status = "enviado" := by
        have := Bool.and_eq_true_iff.mp hc
        exact ⟨beq_iff_eq.mp this.1, beq_iff_eq.mp this.2⟩
      rw [latestPending, hc, if_pos rfl] at h
      cases hr : latestPending rest pid with
      | none =>
        rw [hr] at h
        obtain rfl := Option.some.inj h
        exact ⟨List.mem_cons_self _ _, hxp⟩
      | some m0 =>
        rw [hr] at h
        have h' : (if m0.dataHora > x.dataHora then some m0 else some x) = some l := h
        by_cases hgt : m0.dataHora > x.dataHora
        · rw [if_pos hgt] at h'
          obtain rfl := Option.some.inj h'
          obtain ⟨hmem, hrest⟩ := ih hr
          exact ⟨List.mem_cons_of_mem x hmem, hrest⟩
        · rw [if_neg hgt] at h'
          obtain rfl := Option.some.inj h'
          exact ⟨List.mem_cons_self _ _, hxp⟩
    · have hc' : (x.idosoId == pid && x.status == "enviado") = false :=
        Bool.eq_false_iff.mpr hc
      rw [latestPending, hc'] at h
      simp only [Bool.false_eq_true, if_false] at h
      obtain ⟨hmem, hrest⟩ := ih h
      exact ⟨List.mem_cons_of_mem x hmem, hrest⟩

/-- In a store with unique document ids, looking up a member entry by
its id finds exactly it. -/
theorem find_of_mem_nodup {ls : List Lembrete} {l : Lembrete}
    (hnd : (ls.map (fun x => x.id)).Nodup) (hm : l ∈ ls) :
    findLembrete ls l.id = some l := by
  induction ls with
  | nil => cases hm
  | cons x rest ih =>
    rw [List.map_cons, List.nodup_cons] at hnd
    rcases List.mem_cons.mp hm with rfl | hm'
    · simp only [findLembrete, List.find?_cons, beq_self_eq_true]
    · have hx : (x.id == l.id) = false := by
        refine Bool.eq_false_iff.mpr (fun he => ?_)
        exact hnd.1 ((beq_iff_eq.mp he) ▸ List.mem_map_of_mem (fun y => y.id) hm')
      simp only [findLembrete, List.find?_cons, hx]
      exact ih hnd.2 hm'

/-- Updating a document by id and then looking that id up yields the
updated document, provided the update preserves the id. -/
theorem findLembrete_update_self {ls : List Lembrete} {i : Nat} {l : Lembrete}
    (f : Lembrete → Lembrete) (hf : ∀ x, (f x).id = x.id)
    (h : findLembrete ls i = some l) :
    findLembrete (updateLembreteById ls i f) i = some (f l) := by
  induction ls with
  | nil => simp [findLembrete] at h
  | cons x rest ih =>
    simp only [findLembrete, List.find?_cons] at h
    simp only [updateLembreteById, List.map_cons, findLembrete, List.find?_cons]
    by_cases hx : (x.id == i) = true
    · rw [hx] at h
      obtain rfl := Option.some.inj h
      have hfx : ((f x).id == i) = true := by rw [hf x]; exact hx
      rw [if_pos hx, hfx]
    · have hx' : (x.id == i) = false := Bool.eq_false_iff.mpr hx
      rw [hx'] at h
      rw [if_neg hx, hx']
      exact ih h

/-- An update by one id leaves documents with another id untouched. -/
theorem mem_update_of_ne {ls : List Lembrete} {m : Lembrete} {i : Nat}
    (f : Lembrete → Lembrete) (hm : m ∈ ls) (hne : m.id ≠ i) :
    m ∈ updateLembreteById ls i f := by
  have hred : (if m.id == i then f m else m) = m := by
    rw [if_neg]
    intro he
    exact hne (beq_iff_eq.mp he)
  rw [updateLembreteById]
  exact hred ▸ List.mem_map_of_mem (fun l => if l.id == i then f l else l) hm

/-- Lookup succeeds on the left part of an appended store. -/
theorem findLembrete_append_left {ls ts : List Lembrete} {i : Nat} {l : Lembrete}
    (h : findLembrete ls i = some l) : findLembrete (ls ++ ts) i = some l := by
  induction ls with
  | nil => simp [findLembrete] at h
  | cons x rest ih =>
    simp only [findLembrete, List.find?_cons] at h
    simp only [List.cons_append, findLembrete, List.find?_cons]
    by_cases hx : (x.id == i) = true
    · rw [hx] at h
      rw [hx]
      exact h
    · have hx' : (x.id == i) = false := Bool.eq_false_iff.mpr hx
      rw [hx'] at h
      rw [hx']
      exact ih h

/-- Lookup skips a left part that does not carry the id. -/
theorem findLembrete_append_right {ls ts : List Lembrete} {i : Nat}
    (h : ∀ x ∈ ls, x.id ≠ i) : findLembrete (ls ++ ts) i = findLembrete ts i := by
  induction ls with
  | nil => rfl
  | cons x rest ih =>
    have hx : (x.id == i) = false := by
      refine Bool.eq_false_iff.mpr (fun he => ?_)
      exact h x (List.mem_cons_self _ _) (beq_iff_eq.mp he)
    simp only [List.cons_append, findLembrete, List.find?_cons, hx]
    exact ih (fun y hy => h y (List.mem_cons_of_mem x hy))

/-- Updating one id does not change lookups of a different id, when the
update preserves ids. -/
theorem findLembrete_update_ne {ls : List Lembrete} {i j : Nat}
    (f : Lembrete → Lembrete) (hf : ∀ x, (f x).id = x.id) (hne : j ≠ i) :
    findLembrete (updateLembreteById ls i f) j = findLembrete ls j := by
  induction ls with
  | nil => rfl
  | cons x rest ih =>
    simp only [updateLembreteById, List.map_cons, findLembrete, List.find?_cons] at ih ⊢
    by_cases hx : (x.id == i) = true
    · have hxj : (x.id == j) = false := by
        refine Bool.eq_false_iff.mpr (fun he => ?_)
        exact hne ((beq_iff_eq.mp he).symm.trans (beq_iff_eq.mp hx))
      have hfxj : ((f x).id == j) = false := by rw [hf x]; exact hxj
      rw [if_pos hx, hfxj, hxj]
      exact ih
    · rw [if_neg hx]
      by_cases hxj : (x.id == j) = true
      · rw [hxj]
      · have hxj' : (x.id == j) = false := Bool.eq_false_iff.mpr hxj
        rw [hxj']
        exact ih

/-! ## Webhook evaluation lemmas -/

/-- When the patient lookup succeeds, the webhook runs the known-patient
body. -/
theorem handleWebhook_known (db : DB) (reqFrom reqBody : Option String)
    (now freshId : Nat) (idoso : Idoso)
    (hfind : findIdosoByPhone db.idosos
      (replaceFirst (normalizePhone reqFrom) "+55" "") = some idoso) :
    handleWhatsAppWebhook db reqFrom reqBody now freshId =
      handleKnown db idoso (normalizePhone reqFrom) (normalizeBody reqBody) now freshId := by
  unfold handleWhatsAppWebhook
  rw [hfind]

/-- Evaluation: reply code other than `"3"` with a pending entry. -/
theorem handleKnown_code_pending_not3 (db : DB) (idoso : Idoso)
    (phone msg : String) (now freshId : Nat) (l : Lembrete)
    (hin : (["1", "2", "3"].contains msg) = true)
    (hne3 : (msg == "3") = false)
    (hlp : latestPending db.lembretes idoso.id = some l) :
    handleKnown db idoso phone msg now freshId =
      { db := { db with lembretes := updateLembreteById db.lembretes l.id (fun x => applyTransition x (statusMap msg) msg now) },
        events := [Event.ledgerUpdate l.id,
          Event.send phone (confirmationMessage idoso.nome msg)],
        ok := true } := by
  unfold handleKnown
  rw [hin, hlp, hne3]
  simp

/-- Evaluation: reply `"3"` with a pending entry. -/
theorem handleKnown_code3_pending (db : DB) (idoso : Idoso)
    (phone : String) (now freshId : Nat) (l : Lembrete)
    (hlp : latestPending db.lembretes idoso.id = some l) :
    handleKnown db idoso phone "3" now freshId =
      { db := { db with lembretes := updateLembreteById db.lembretes l.id (fun x => applyTransition x (statusMap "3") "3" now) ++ [mkPostponed l idoso.id freshId now] },
        events := [Event.ledgerUpdate l.id, Event.ledgerSet freshId,
          Event.send phone (confirmationMessage idoso.nome "3")],
        ok := true } := by
  unfold handleKnown
  rw [hlp]
  simp [mkPostponed]

/-- Evaluation: reply code with no pending entry. -/
theorem handleKnown_code_nopending (db : DB) (idoso : Idoso)
    (phone msg : String) (now freshId : Nat)
    (hin : (["1", "2", "3"].contains msg) = true)
    (hlp : latestPending db.lembretes idoso.id = none) :
    handleKnown db idoso phone msg now freshId =
      { db := db,
        events := [Event.send phone (confirmationMessage idoso.nome msg)],
        ok := true } := by
  unfold handleKnown
  rw [hin, hlp]
  simp

/-- Evaluation: the `"sair"` branch. -/
theorem handleKnown_sair (db : DB) (idoso : Idoso)
    (phone msg : String) (now freshId : Nat)
    (hin : (["1", "2", "3"].contains msg) = false)
    (hsair : (jsToLower msg == "sair") = true) :
    handleKnown db idoso phone msg now freshId =
      { db := { db with medicamentos := deactivateMeds db.medicamentos idoso.id now },
        events :=
          [Event.medsBatchUpdate
             ((db.medicamentos.filter (fun m => m.idosoId == idoso.id && m.ativo)).map
               (fun m => m.id)),
           Event.send phone (optOutMessage idoso.nome)],
        ok := true } := by
  unfold handleKnown
  rw [hin, hsair]
  simp

/-- Evaluation: the unrecognized-input branch. -/
theorem handleKnown_help (db : DB) (idoso : Idoso)
    (phone msg : String) (now freshId : Nat)
    (hin : (["1", "2", "3"].contains msg) = false)
    (hsair : (jsToLower msg == "sair") = false) :
    handleKnown db idoso phone msg now freshId =
      { db := db, events := [Event.send phone helpMessage], ok := true } := by
  unfold handleKnown
  rw [hin, hsair]
  simp

/-! ## C1: reply codes drive the transition on the latest pending entry -/

/-- C1: a reply whose trimmed body is `"1"`, `"2"` or `"3"` from a known
patient maps to `'tomou'` / `'nao_tomou'` / `'adiado'` respectively; the
single latest pending entry gets that status with a response timestamp
and the raw code, every other entry survives; a `"3"` additionally
creates exactly one new entry with status `'agendado_adiado'`, the
original scheduled time-of-day, delay 10 and attempt count 1, while any
other code creates none. -/
theorem handleReply_code_transition
    (db : DB) (reqFrom reqBody : Option String) (now freshId : Nat)
    (idoso : Idoso) (l : Lembrete) (msg : String)
    (hfind : findIdosoByPhone db.idosos
      (replaceFirst (normalizePhone reqFrom) "+55" "") = some idoso)
    (hmsg : normalizeBody reqBody = msg)
    (hcode : msg = "1" ∨ msg = "2" ∨ msg = "3")
    (hlp : latestPending db.lembretes idoso.id = some l)
    (hnodup : (db.lembretes.map (fun x => x.id)).Nodup) :
    findLembrete (handleWhatsAppWebhook db reqFrom reqBody now freshId).db.lembretes l.id =
      some { l with
             status := if msg = "1" then "tomou" else if msg = "2" then "nao_tomou" else "adiado",
             ultimaResposta := some now, respostaRecebida := some msg } ∧
    (∀ x ∈ db.lembretes, x.id ≠ l.id →
      x ∈ (handleWhatsAppWebhook db reqFrom reqBody now freshId).db.lembretes) ∧
    (msg = "3" →
      (handleWhatsAppWebhook db reqFrom reqBody now freshId).db.lembretes.length =
          db.lembretes.length + 1 ∧
      (handleWhatsAppWebhook db reqFrom reqBody now freshId).db.lembretes.getLast? =
        some { id := freshId, medicamentoId := l.medicamentoId, idosoId := idoso.id,
               dataHora := now, status := "agendado_adiado", tentativas := 1,
               horarioOriginal := l.horarioOriginal, adiadoPor := some 10 }) ∧
    (msg ≠ "3" →
      (handleWhatsAppWebhook db reqFrom reqBody now freshId).db.lembretes.length =
        db.lembretes.length) := by
  have hweb := handleWebhook_known db reqFrom reqBody now freshId idoso hfind
  rw [hweb, hmsg]
  obtain ⟨hlm, -, -⟩ := latestPending_mem hlp
  have hfl : findLembrete db.lembretes l.id = some l := find_of_mem_nodup hnodup hlm
  rcases hcode with rfl | rfl | rfl
  · rw [handleKnown_code_pending_not3 db idoso _ "1" now freshId l (by decide) (by decide) hlp]
    refine ⟨?_, ?_, ?_, ?_⟩
    · exact findLembrete_update_self _ (fun x => rfl) hfl
    · intro x hx hne
      exact mem_update_of_ne _ hx hne
    · intro h3
      exact absurd h3 (by decide)
    · intro _
      simp [updateLembreteById]
  · rw [handleKnown_code_pending_not3 db idoso _ "2" now freshId l (by decide) (by decide) hlp]
    refine ⟨?_, ?_, ?_, ?_⟩
    · exact findLembrete_update_self _ (fun x => rfl) hfl
    · intro x hx hne
      exact mem_update_of_ne _ hx hne
    · intro h3
      exact absurd h3 (by decide)
    · intro _
      simp [updateLembreteById]
  · rw [handleKnown_code3_pending db idoso _ now freshId l hlp]
    refine ⟨?_, ?_, ?_, ?_⟩
    · exact findLembrete_append_left (findLembrete_update_self _ (fun x => rfl) hfl)
    · intro x hx hne
      exact List.mem_append_left _ (mem_update_of_ne _ hx hne)
    · intro _
      constructor
      · simp [updateLembreteById]
      · rw [List.getLast?_concat]
        rfl
    · intro h3
      exact absurd rfl h3

/-- Witness for C1: in the sample store a reply `"3"` marks the pending
entry `'adiado'` with the stamps and appends the postponed entry. -/
theorem handleReply_code_transition_witness :
    findLembrete (handleWhatsAppWebhook exDB (some "whatsapp:+5511999990000")
        (some "3") 500 7).db.lembretes 1 =
      some { exLemb with
             status := "adiado", ultimaResposta := some 500,
             respostaRecebida := some "3" } :=
  (handleReply_code_transition exDB (some "whatsapp:+5511999990000") (some "3")
    500 7 exIdoso exLemb "3" rfl rfl (Or.inr (Or.inr rfl)) rfl (by decide)).1

/-! ## C10: code replies with no pending entry leave the ledger alone -/

/-- C10: when a known patient has no entry in status `'enviado'`, a
reply `"1"`, `"2"` or `"3"` writes nothing at all — in particular no
`'agendado_adiado'` entry is created for `"3"` — while the per-code
confirmation is still the only side effect. -/
theorem handleReply_code_no_pending_frame
    (db : DB) (reqFrom reqBody : Option String) (now freshId : Nat)
    (idoso : Idoso) (msg : String)
    (hfind : findIdosoByPhone db.idosos
      (replaceFirst (normalizePhone reqFrom) "+55" "") = some idoso)
    (hmsg : normalizeBody reqBody = msg)
    (hcode : msg = "1" ∨ msg = "2" ∨ msg = "3")
    (hlp : latestPending db.lembretes idoso.id = none) :
    (handleWhatsAppWebhook db reqFrom reqBody now freshId).db = db ∧
    (handleWhatsAppWebhook db reqFrom reqBody now freshId).events =
      [Event.send (normalizePhone reqFrom) (confirmationMessage idoso.nome msg)] := by
  have hweb := handleWebhook_known db reqFrom reqBody now freshId idoso hfind
  rw [hweb, hmsg]
  have hin : ((["1", "2", "3"] : List String).contains msg) = true := by
    rcases hcode with rfl | rfl | rfl <;> decide
  rw [handleKnown_code_nopending db idoso _ msg now freshId hin hlp]
  exact ⟨rfl, rfl⟩

/-- Witness for C10: reply `"3"` on a store whose only entry is already
`'tomou'` changes nothing. -/
theorem handleReply_code_no_pending_frame_witness :
    (handleWhatsAppWebhook exDBNoPending (some "whatsapp:+5511999990000")
      (some "3") 500 7).db = exDBNoPending :=
  (handleReply_code_no_pending_frame exDBNoPending
    (some "whatsapp:+5511999990000") (some "3") 500 7 exIdoso "3" rfl rfl
    (Or.inr (Or.inr rfl)) rfl).1

/-! ## C8: unrecognized replies never mutate the store and get help text -/

/-- C8: for a known patient, any trimmed body other than `"1"`, `"2"`,
`"3"` or case-insensitively `"sair"` leaves the whole store (in
particular every reminder entry) unchanged and sends exactly the fixed
help message. -/
theorem handleReply_unrecognized_frame
    (db : DB) (reqFrom reqBody : Option String) (now freshId : Nat)
    (idoso : Idoso) (msg : String)
    (hfind : findIdosoByPhone db.idosos
      (replaceFirst (normalizePhone reqFrom) "+55" "") = some idoso)
    (hmsg : normalizeBody reqBody = msg)
    (hnotcode : msg ∉ (["1", "2", "3"] : List String))
    (hnotsair : jsToLower msg ≠ "sair") :
    (handleWhatsAppWebhook db reqFrom reqBody now freshId).db = db ∧
    (handleWhatsAppWebhook db reqFrom reqBody now freshId).events =
      [Event.send (normalizePhone reqFrom) helpMessage] ∧
    (handleWhatsAppWebhook db reqFrom reqBody now freshId).ok = true := by
  have hweb := handleWebhook_known db reqFrom reqBody now freshId idoso hfind
  rw [hweb, hmsg]
  have hin : ((["1", "2", "3"] : List String).contains msg) = false :=
    Bool.eq_false_iff.mpr (fun hc => hnotcode (List.elem_iff.mp hc))
  have hs : (jsToLower msg == "sair") = false :=
    Bool.eq_false_iff.mpr (fun hc => hnotsair (beq_iff_eq.mp hc))
  rw [handleKnown_help db idoso _ msg now freshId hin hs]
  exact ⟨rfl, rfl, rfl⟩

/-- Witness for C8: reply `"xyz"` on the sample store. -/
theorem handleReply_unrecognized_frame_witness :
    (handleWhatsAppWebhook exDB (some "whatsapp:+5511999990000")
        (some "xyz") 500 7).db = exDB ∧
    (handleWhatsAppWebhook exDB (some "whatsapp:+5511999990000")
        (some "xyz") 500 7).events = [Event.send "+5511999990000" helpMessage] := by
  have h := handleReply_unrecognized_frame exDB (some "whatsapp:+5511999990000")
    (some "xyz") 500 7 exIdoso "xyz" rfl rfl (by decide) (by decide)
  exact ⟨h.1, h.2.1⟩

/-! ## C5: exactly one confirmation per code, after all ledger writes -/

/-- C5: a reply `"1"`, `"2"` or `"3"` from a known patient always
produces exactly one outbound message, the fixed confirmation for that
code — whether or not a pending entry existed — and that send is the
last event of the invocation, so every ledger write precedes it. -/
theorem handleReply_confirmation_always
    (db : DB) (reqFrom reqBody : Option String) (now freshId : Nat)
    (idoso : Idoso) (msg : String)
    (hfind : findIdosoByPhone db.idosos
      (replaceFirst (normalizePhone reqFrom) "+55" "") = some idoso)
    (hmsg : normalizeBody reqBody = msg)
    (hcode : msg = "1" ∨ msg = "2" ∨ msg = "3") :
    ((handleWhatsAppWebhook db reqFrom reqBody now freshId).events.filter Event.isSend =
      [Event.send (normalizePhone reqFrom) (confirmationMessage idoso.nome msg)]) ∧
    ((handleWhatsAppWebhook db reqFrom reqBody now freshId).events.getLast? =
      some (Event.send (normalizePhone reqFrom) (confirmationMessage idoso.nome msg))) := by
  have hweb := handleWebhook_known db reqFrom reqBody now freshId idoso hfind
  rw [hweb, hmsg]
  have hin : ((["1", "2", "3"] : List String).contains msg) = true := by
    rcases hcode with rfl | rfl | rfl <;> decide
  cases hlp : latestPending db.lembretes idoso.id with
  | none =>
    rw [handleKnown_code_nopending db idoso _ msg now freshId hin hlp]
    exact ⟨rfl, rfl⟩
  | some l =>
    rcases hcode with rfl | rfl | rfl
    · rw [handleKnown_code_pending_not3 db idoso _ "1" now freshId l (by decide) (by decide) hlp]
      exact ⟨rfl, rfl⟩
    · rw [handleKnown_code_pending_not3 db idoso _ "2" now freshId l (by decide) (by decide) hlp]
      exact ⟨rfl, rfl⟩
    · rw [handleKnown_code3_pending db idoso _ now freshId l hlp]
      exact ⟨rfl, rfl⟩

/-- Witness for C5: reply `"1"` on the sample store sends exactly the
taken-confirmation, last. -/
theorem handleReply_confirmation_always_witness :
    (handleWhatsAppWebhook exDB (some "whatsapp:+5511999990000")
        (some "1") 500 7).events.filter Event.isSend =
      [Event.send "+5511999990000" (confirmationMessage "Maria" "1")] :=
  (handleReply_confirmation_always exDB (some "whatsapp:+5511999990000")
    (some "1") 500 7 exIdoso "1" rfl rfl (Or.inl rfl)).1

/-! ## C7: `"sair"` deactivates all active medications, idempotently -/

/-- A code reply cannot also read as `"sair"`. -/
theorem contains_codes_false_of_sair {msg : String} (h : jsToLower msg = "sair") :
    ((["1", "2", "3"] : List String).contains msg) = false := by
  refine Bool.eq_false_iff.mpr (fun hc => ?_)
  have hmem := List.elem_iff.mp hc
  simp only [List.mem_cons, List.mem_singleton, List.not_mem_nil, or_false] at hmem
  rcases hmem with rfl | rfl | rfl
  · exact absurd h (by decide)
  · exact absurd h (by decide)
  · exact absurd h (by decide)

/-- Deactivating a patient's medications twice equals doing it once:
the second pass finds no active medication of the patient. -/
theorem deactivateMeds_idem (ms : List Medicamento) (pid : String) (now now2 : Nat) :
    deactivateMeds (deactivateMeds ms pid now) pid now2 = deactivateMeds ms pid now := by
  unfold deactivateMeds
  rw [List.map_map]
  refine List.map_eq_map_iff.mpr (fun m _ => ?_)
  by_cases h : (m.idosoId == pid && m.ativo) = true
  · simp only [Function.comp_apply, if_pos h]
    rw [if_neg]
    intro hc
    exact Bool.false_ne_true (Bool.and_eq_true_iff.mp hc).2
  · simp only [Function.comp_apply, if_neg h]

/-- C7: a reply that case-insensitively trims to `"sair"` from a known
patient deactivates every active medication of that patient, stamping
the deactivation timestamp, leaves all other medications alone, emits
one batched medication write followed by exactly one opt-out
confirmation, and is idempotent: a second `"sair"` leaves the
medications unchanged. -/
theorem handleReply_sair_deactivates
    (db : DB) (reqFrom reqBody : Option String) (now now2 freshId freshId2 : Nat)
    (idoso : Idoso)
    (hfind : findIdosoByPhone db.idosos
      (replaceFirst (normalizePhone reqFrom) "+55" "") = some idoso)
    (hsair : jsToLower (normalizeBody reqBody) = "sair") :
    (∀ m ∈ db.medicamentos, m.idosoId = idoso.id → m.ativo = true →
      { m with ativo := false, desativadoEm := some now } ∈
        (handleWhatsAppWebhook db reqFrom reqBody now freshId).db.medicamentos) ∧
    (∀ m ∈ db.medicamentos, ¬(m.idosoId = idoso.id ∧ m.ativo = true) →
      m ∈ (handleWhatsAppWebhook db reqFrom reqBody now freshId).db.medicamentos) ∧
    (∀ m ∈ (handleWhatsAppWebhook db reqFrom reqBody now freshId).db.medicamentos,
      m.idosoId = idoso.id → m.ativo = false) ∧
    ((handleWhatsAppWebhook db reqFrom reqBody now freshId).events =
      [Event.medsBatchUpdate ((db.medicamentos.filter (fun m => m.idosoId == idoso.id && m.ativo)).map (fun m => m.id)),
       Event.send (normalizePhone reqFrom) (optOutMessage idoso.nome)]) ∧
    ((handleWhatsAppWebhook (handleWhatsAppWebhook db reqFrom reqBody now freshId).db
        reqFrom reqBody now2 freshId2).db.medicamentos =
      (handleWhatsAppWebhook db reqFrom reqBody now freshId).db.medicamentos) := by
  have hin : ((["1", "2", "3"] : List String).contains (normalizeBody reqBody)) = false :=
    contains_codes_false_of_sair hsair
  have hsair' : (jsToLower (normalizeBody reqBody) == "sair") = true := beq_iff_eq.mpr hsair
  have hweb := handleWebhook_known db reqFrom reqBody now freshId idoso hfind
  have hk := handleKnown_sair db idoso (normalizePhone reqFrom) (normalizeBody reqBody)
    now freshId hin hsair'
  rw [hweb, hk]
  refine ⟨?_, ?_, ?_, rfl, ?_⟩
  · intro m hm hpid hact
    have hc : (m.idosoId == idoso.id && m.ativo) = true :=
      Bool.and_eq_true_iff.mpr ⟨beq_iff_eq.mpr hpid, hact⟩
    have hred : (if m.idosoId == idoso.id && m.ativo then { m with ativo := false, desativadoEm := some now } else m) = { m with ativo := false, desativadoEm := some now } :=
      if_pos hc
    exact hred ▸ List.mem_map_of_mem _ hm
  · intro m hm hneg
    have hc : (m.idosoId == idoso.id && m.ativo) = false := by
      refine Bool.eq_false_iff.mpr (fun hc => hneg ?_)
      have := Bool.and_eq_true_iff.mp hc
      exact ⟨beq_iff_eq.mp this.1, this.2⟩
    have hred : (if m.idosoId == idoso.id && m.ativo then { m with ativo := false, desativadoEm := some now } else m) = m := by
      rw [hc]
      rfl
    exact hred ▸ List.mem_map_of_mem _ hm
  · intro m hm hpid
    rcases List.mem_map.mp hm with ⟨x, hx, hmx⟩
    by_cases hc : (x.idosoId == idoso.id && x.ativo) = true
    · rw [if_pos hc] at hmx
      rw [← hmx]
    · have hc' : (x.idosoId == idoso.id && x.ativo) = false := Bool.eq_false_iff.mpr hc
      have hmx' : x = m := by
        rw [hc'] at hmx
        exact hmx
      subst hmx'
      cases hact : x.ativo with
      | false => rfl
      | true =>
        exact absurd (Bool.and_eq_true_iff.mpr ⟨beq_iff_eq.mpr hpid, hact⟩) hc
  · have hweb2 := handleWebhook_known
      { db with medicamentos := deactivateMeds db.medicamentos idoso.id now }
      reqFrom reqBody now2 freshId2 idoso hfind
    have hk2 := handleKnown_sair
      { db with medicamentos := deactivateMeds db.medicamentos idoso.id now }
      idoso (normalizePhone reqFrom) (normalizeBody reqBody) now2 freshId2 hin hsair'
    rw [hweb2, hk2]
    exact deactivateMeds_idem db.medicamentos idoso.id now now2

/-- Witness for C7: `"SAIR"` on the sample store deactivates `m1` in
one batch and confirms once; a second `"SAIR"` changes nothing. -/
theorem handleReply_sair_deactivates_witness :
    (handleWhatsAppWebhook (handleWhatsAppWebhook exDB (some "whatsapp:+5511999990000")
        (some "SAIR") 500 7).db (some "whatsapp:+5511999990000")
        (some "SAIR") 600 8).db.medicamentos =
      (handleWhatsAppWebhook exDB (some "whatsapp:+5511999990000")
        (some "SAIR") 500 7).db.medicamentos :=
  (handleReply_sair_deactivates exDB (some "whatsapp:+5511999990000")
    (some "SAIR") 500 600 7 8 exIdoso rfl rfl).2.2.2.2

/-! ## Dispatcher lemmas -/

/-- Recording a delivery outcome never changes the document id. -/
theorem applyOutcome_id (l : Lembrete) (o : SendResult) :
    (applyOutcome l o).id = l.id := by
  cases o <;> rfl

/-- Every staged entry starts in status `'enviado'`, attempt 1, with
the firing time preserved and no gateway id. -/
theorem collect_fields (idosos : List Idoso) (d : Nat) (t : String) (now : Nat) :
    ∀ (ms : List Medicamento) (n : Nat), ∀ r ∈ collectReminders idosos d t now ms n,
      r.lembrete.status = "enviado" ∧ r.lembrete.tentativas = 1 ∧
        r.lembrete.horarioOriginal = t ∧ r.lembrete.twilioSid = none := by
  intro ms
  induction ms with
  | nil =>
    intro n r hr
    simp [collectReminders] at hr
  | cons x rest ih =>
    intro n r hr
    by_cases hax : (x.ativo && isDue x d t) = true
    · cases hf : findIdosoById idosos x.idosoId with
      | none =>
        simp only [collectReminders, hax, hf, if_true] at hr
        exact ih n r hr
      | some idoso =>
        simp only [collectReminders, hax, hf, if_true] at hr
        rcases List.mem_cons.mp hr with rfl | hr'
        · exact ⟨rfl, rfl, rfl, rfl⟩
        · exact ih (n + 1) r hr'
    · have hax' : (x.ativo && isDue x d t) = false := Bool.eq_false_iff.mpr hax
      simp only [collectReminders, hax', Bool.false_eq_true, if_false] at hr
      exact ih n r hr

/-- Ids of staged entries are drawn at or above the counter. -/
theorem collect_id_ge (idosos : List Idoso) (d : Nat) (t : String) (now : Nat) :
    ∀ (ms : List Medicamento) (n : Nat), ∀ r ∈ collectReminders idosos d t now ms n,
      n ≤ r.lembrete.id := by
  intro ms
  induction ms with
  | nil =>
    intro n r hr
    simp [collectReminders] at hr
  | cons x rest ih =>
    intro n r hr
    by_cases hax : (x.ativo && isDue x d t) = true
    · cases hf : findIdosoById idosos x.idosoId with
      | none =>
        simp only [collectReminders, hax, hf, if_true] at hr
        exact ih n r hr
      | some idoso =>
        simp only [collectReminders, hax, hf, if_true] at hr
        rcases List.mem_cons.mp hr with rfl | hr'
        · exact le_refl _
        · exact le_trans (Nat.le_succ n) (ih (n + 1) r hr')
    · have hax' : (x.ativo && isDue x d t) = false := Bool.eq_false_iff.mpr hax
      simp only [collectReminders, hax', Bool.false_eq_true, if_false] at hr
      exact ih n r hr

/-- Ids of staged entries strictly increase along the list. -/
theorem collect_pairwise (idosos : List Idoso) (d : Nat) (t : String) (now : Nat) :
    ∀ (ms : List Medicamento) (n : Nat),
      (collectReminders idosos d t now ms n).Pairwise
        (fun a b => a.lembrete.id < b.lembrete.id) := by
  intro ms
  induction ms with
  | nil =>
    intro n
    simp [collectReminders]
  | cons x rest ih =>
    intro n
    by_cases hax : (x.ativo && isDue x d t) = true
    · cases hf : findIdosoById idosos x.idosoId with
      | none =>
        simp only [collectReminders, hax, hf, if_true]
        exact ih n
      | some idoso =>
        simp only [collectReminders, hax, hf, if_true]
        refine List.pairwise_cons.mpr ⟨?_, ih (n + 1)⟩
        intro r hr
        exact lt_of_lt_of_le (Nat.lt_succ_self n) (collect_id_ge idosos d t now rest (n + 1) r hr)
    · have hax' : (x.ativo && isDue x d t) = false := Bool.eq_false_iff.mpr hax
      simp only [collectReminders, hax', Bool.false_eq_true, if_false]
      exact ih n

/-- The staged-entry ids are distinct. -/
theorem collect_ids_nodup (idosos : List Idoso) (d : Nat) (t : String) (now : Nat)
    (ms : List Medicamento) (n : Nat) :
    ((collectReminders idosos d t now ms n).map (fun r => r.lembrete.id)).Nodup := by
  have hp := collect_pairwise idosos d t now ms n
  have hne : ((collectReminders idosos d t now ms n).map (fun r => r.lembrete.id)).Pairwise (fun a b => a ≠ b) := by
    rw [List.pairwise_map]
    exact hp.imp (fun h => Nat.ne_of_lt h)
  exact hne

/-- Walking medications whose ids all differ from `mid` stages no entry
for `mid`. -/
theorem collect_countP_zero (idosos : List Idoso) (d : Nat) (t : String) (now : Nat)
    (mid : String) :
    ∀ (ms : List Medicamento) (n : Nat), (∀ x ∈ ms, x.id ≠ mid) →
      List.countP (fun r => r.medicamento.id == mid)
        (collectReminders idosos d t now ms n) = 0 := by
  intro ms
  induction ms with
  | nil =>
    intro n _
    simp [collectReminders]
  | cons x rest ih =>
    intro n h
    have hrest : ∀ y ∈ rest, y.id ≠ mid := fun y hy => h y (List.mem_cons_of_mem x hy)
    by_cases hax : (x.ativo && isDue x d t) = true
    · cases hf : findIdosoById idosos x.idosoId with
      | none =>
        simp only [collectReminders, hax, hf, if_true]
        exact ih n hrest
      | some idoso =>
        simp only [collectReminders, hax, hf, if_true]
        rw [List.countP_cons]
        have hbeq : ((x.id == mid) : Bool) = false :=
          Bool.eq_false_iff.mpr (fun he => h x (List.mem_cons_self x rest) (beq_iff_eq.mp he))
        rw [ih (n + 1) hrest]
        simp [hbeq]
    · have hax' : (x.ativo && isDue x d t) = false := Bool.eq_false_iff.mpr hax
      simp only [collectReminders, hax', Bool.false_eq_true, if_false]
      exact ih n hrest

/-- In a store with distinct medication ids, each active medication due
now whose patient exists gets exactly one staged entry. -/
theorem collect_countP_one (idosos : List Idoso) (d : Nat) (t : String) (now : Nat)
    (m : Medicamento) (idoso : Idoso) :
    ∀ (ms : List Medicamento) (n : Nat), (ms.map (fun x => x.id)).Nodup →
      m ∈ ms → m.ativo = true → isDue m d t = true →
      findIdosoById idosos m.idosoId = some idoso →
      List.countP (fun r => r.medicamento.id == m.id)
        (collectReminders idosos d t now ms n) = 1 := by
  intro ms
  induction ms with
  | nil =>
    intro n _ hm
    cases hm
  | cons x rest ih =>
    intro n hnd hm hact hdue hpat
    rw [List.map_cons, List.nodup_cons] at hnd
    rcases List.mem_cons.mp hm with rfl | hm'
    · have hax : (m.ativo && isDue m d t) = true := by rw [hact, hdue]; rfl
      simp only [collectReminders, hax, hpat, if_true]
      rw [List.countP_cons]
      rw [collect_countP_zero idosos d t now m.id rest (n + 1)
        (fun y hy he => hnd.1 (he ▸ List.mem_map_of_mem (fun z => z.id) hy))]
      simp
    · have hxm : x.id ≠ m.id :=
        fun he => hnd.1 (he ▸ List.mem_map_of_mem (fun z => z.id) hm')
      by_cases hax : (x.ativo && isDue x d t) = true
      · cases hf : findIdosoById idosos x.idosoId with
        | none =>
          simp only [collectReminders, hax, hf, if_true]
          exact ih n hnd.2 hm' hact hdue hpat
        | some idoso2 =>
          simp only [collectReminders, hax, hf, if_true]
          rw [List.countP_cons]
          have hbeq : ((x.id == m.id) : Bool) = false :=
            Bool.eq_false_iff.mpr (fun he => hxm (beq_iff_eq.mp he))
          rw [ih (n + 1) hnd.2 hm' hact hdue hpat]
          simp [hbeq]
      · have hax' : (x.ativo && isDue x d t) = false := Bool.eq_false_iff.mpr hax
        simp only [collectReminders, hax', Bool.false_eq_true, if_false]
        exact ih n hnd.2 hm' hact hdue hpat

/-- Unfolding one delivery step on the store component. -/
theorem deliverReminders_cons_fst (res : Nat → SendResult) (db : DB)
    (a : PendingSend) (rest : List PendingSend) :
    (deliverReminders res db (a :: rest)).1 =
      (deliverReminders res { db with lembretes := updateLembreteById db.lembretes a.lembrete.id (fun x => applyOutcome x (res a.lembrete.id)) } rest).1 := rfl

/-- Delivering reminders whose entries all have other ids leaves a
lookup unchanged. -/
theorem deliverReminders_preserve (res : Nat → SendResult) (j : Nat) :
    ∀ (rs : List PendingSend) (db : DB), (∀ r ∈ rs, r.lembrete.id ≠ j) →
      findLembrete (deliverReminders res db rs).1.lembretes j =
        findLembrete db.lembretes j := by
  intro rs
  induction rs with
  | nil =>
    intro db _
    rfl
  | cons a rest ih =>
    intro db h
    rw [deliverReminders_cons_fst]
    rw [ih _ (fun r hr => h r (List.mem_cons_of_mem a hr))]
    exact findLembrete_update_ne _ (fun x => applyOutcome_id x _)
      (Ne.symm (h a (List.mem_cons_self a rest)))

/-- After the delivery loop, every staged reminder's entry records
exactly its own gateway outcome — one failure never disturbs the
others. -/
theorem deliverReminders_find (res : Nat → SendResult) :
    ∀ (rs : List PendingSend) (db : DB),
      (rs.map (fun r => r.lembrete.id)).Nodup →
      (∀ r ∈ rs, findLembrete db.lembretes r.lembrete.id = some r.lembrete) →
      ∀ r ∈ rs, findLembrete (deliverReminders res db rs).1.lembretes r.lembrete.id =
        some (applyOutcome r.lembrete (res r.lembrete.id)) := by
  intro rs
  induction rs with
  | nil =>
    intro db _ _ r hr
    cases hr
  | cons a rest ih =>
    intro db hnd hpre r hr
    rw [List.map_cons, List.nodup_cons] at hnd
    rw [deliverReminders_cons_fst]
    rcases List.mem_cons.mp hr with rfl | hr'
    · rw [deliverReminders_preserve res r.lembrete.id rest _
        (fun s hs he => hnd.1 (by rw [← he]; exact List.mem_map_of_mem (fun z => z.lembrete.id) hs))]
      exact findLembrete_update_self _ (fun x => applyOutcome_id x _)
        (hpre r (List.mem_cons_self r rest))
    · refine ih _ hnd.2 ?_ r hr'
      intro s hs
      rw [findLembrete_update_ne _ (fun x => applyOutcome_id x _)
        (fun he => hnd.1 (by rw [← he]; exact List.mem_map_of_mem (fun z => z.lembrete.id) hs))]
      exact hpre s (List.mem_cons_of_mem a hs)

/-- Unfolding a tick that stages at least one reminder: the batch
commit precedes the delivery loop. -/
theorem check_eq_of_ne_nil (db : DB) (d : Nat) (t : String) (now n : Nat)
    (res : Nat → SendResult) (h : tickCollect db d t now n ≠ []) :
    checkMedicationReminders db d t now n res =
      ((deliverReminders res (tickCommitState db d t now n) (tickCollect db d t now n)).1,
       Event.ledgerBatchSet ((tickCollect db d t now n).map (fun r => r.lembrete.id)) ::
         (deliverReminders res (tickCommitState db d t now n) (tickCollect db d t now n)).2) := by
  unfold checkMedicationReminders
  rw [if_neg]
  intro hc
  exact h (List.isEmpty_iff.mp hc)

/-! ## C3: one entry per due medication, batch-committed before delivery -/

/-- A success result used in tick witnesses. -/
def exResOk : Nat → SendResult := fun _ => SendResult.ok "SM1" "queued"

/-- C3: each active medication due at the tick's day and time whose
patient exists gets exactly one staged ledger entry, in status
`'enviado'` with attempt 1 and the firing time preserved; all staged
entries are committed in one batch event that precedes every delivery
event of the tick, and the committed pre-delivery store holds only the
old entries plus entries in `'enviado'` with no gateway id. -/
theorem tick_commit_before_delivery
    (db : DB) (currentDay : Nat) (currentTime : String) (now nextId : Nat)
    (res : Nat → SendResult) (m : Medicamento) (idoso : Idoso)
    (hnodup : (db.medicamentos.map (fun x => x.id)).Nodup)
    (hm : m ∈ db.medicamentos) (hact : m.ativo = true)
    (hdue : isDue m currentDay currentTime = true)
    (hpat : findIdosoById db.idosos m.idosoId = some idoso) :
    List.countP (fun r => r.medicamento.id == m.id)
        (tickCollect db currentDay currentTime now nextId) = 1 ∧
    (∀ r ∈ tickCollect db currentDay currentTime now nextId,
      r.lembrete.status = "enviado" ∧ r.lembrete.tentativas = 1 ∧
        r.lembrete.horarioOriginal = currentTime ∧ r.lembrete.twilioSid = none) ∧
    (checkMedicationReminders db currentDay currentTime now nextId res).2.head? =
      some (Event.ledgerBatchSet
        ((tickCollect db currentDay currentTime now nextId).map (fun r => r.lembrete.id))) ∧
    (∀ l ∈ (tickCommitState db currentDay currentTime now nextId).lembretes,
      l ∈ db.lembretes ∨ (l.status = "enviado" ∧ l.twilioSid = none)) := by
  have hcnt : List.countP (fun r => r.medicamento.id == m.id)
      (tickCollect db currentDay currentTime now nextId) = 1 :=
    collect_countP_one db.idosos currentDay currentTime now m idoso db.medicamentos
      nextId hnodup hm hact hdue hpat
  have hfields := collect_fields db.idosos currentDay currentTime now db.medicamentos nextId
  have hne : tickCollect db currentDay currentTime now nextId ≠ [] := by
    intro h0
    rw [h0] at hcnt
    simp at hcnt
  refine ⟨hcnt, fun r hr => hfields r hr, ?_, ?_⟩
  · rw [check_eq_of_ne_nil db currentDay currentTime now nextId res hne]
    rfl
  · intro l hl
    have hl' : l ∈ db.lembretes ++
        List.map (fun r => r.lembrete) (tickCollect db currentDay currentTime now nextId) := hl
    rcases List.mem_append.mp hl' with h | h
    · exact Or.inl h
    · rcases List.mem_map.mp h with ⟨r, hr, rfl⟩
      obtain ⟨h1, -, -, h4⟩ := hfields r hr
      exact Or.inr ⟨h1, h4⟩

/-- Witness for C3: on the sample store, the tick at day 3, 09:00
emits the batch commit of entry 10 as its first event. -/
theorem tick_commit_before_delivery_witness :
    (checkMedicationReminders exDB 3 "09:00" 500 10 exResOk).2.head? =
      some (Event.ledgerBatchSet [10]) :=
  (tick_commit_before_delivery exDB 3 "09:00" 500 10 exResOk exMed exIdoso
    (by decide) (by decide) rfl (by decide) rfl).2.2.1

/-! ## C6: delivery failures are recorded per entry and stay isolated -/

/-- C6: in a tick, every staged reminder's ledger entry ends up
recording exactly its own delivery outcome: a gateway failure marks
that entry `'erro'` with the error detail, while every other reminder
of the same tick — before or after the failing one — still gets its own
outcome recorded, so one failure never aborts the rest. -/
theorem tick_delivery_failure_isolated
    (db : DB) (currentDay : Nat) (currentTime : String) (now nextId : Nat)
    (res : Nat → SendResult)
    (hfresh : ∀ x ∈ db.lembretes, x.id < nextId) :
    ∀ r ∈ tickCollect db currentDay currentTime now nextId,
      (∀ e, res r.lembrete.id = SendResult.fail e →
        findLembrete (checkMedicationReminders db currentDay currentTime now nextId res).1.lembretes r.lembrete.id =
          some { r.lembrete with status := "erro", erro := some e }) ∧
      (∀ sid st, res r.lembrete.id = SendResult.ok sid st →
        findLembrete (checkMedicationReminders db currentDay currentTime now nextId res).1.lembretes r.lembrete.id =
          some { r.lembrete with twilioSid := some sid, twilioStatus := some st }) := by
  intro r hr
  have hne : tickCollect db currentDay currentTime now nextId ≠ [] := by
    intro h0
    rw [h0] at hr
    cases hr
  have hnd : ((tickCollect db currentDay currentTime now nextId).map
      (fun s => s.lembrete.id)).Nodup :=
    collect_ids_nodup db.idosos currentDay currentTime now db.medicamentos nextId
  have hpre : ∀ s ∈ tickCollect db currentDay currentTime now nextId,
      findLembrete (tickCommitState db currentDay currentTime now nextId).lembretes
        s.lembrete.id = some s.lembrete := by
    intro s hs
    have hskip : ∀ x ∈ db.lembretes, x.id ≠ s.lembrete.id := by
      intro x hx he
      have h1 := hfresh x hx
      have h2 := collect_id_ge db.idosos currentDay currentTime now db.medicamentos
        nextId s hs
      omega
    have hgoal : findLembrete (db.lembretes ++
        List.map (fun z => z.lembrete) (tickCollect db currentDay currentTime now nextId))
        s.lembrete.id = some s.lembrete := by
      rw [findLembrete_append_right hskip]
      have hnd2 : (((tickCollect db currentDay currentTime now nextId).map
          (fun z => z.lembrete)).map (fun x => x.id)).Nodup := by
        rw [List.map_map]
        exact hnd
      exact find_of_mem_nodup hnd2 (List.mem_map_of_mem (fun z => z.lembrete) hs)
    exact hgoal
  have hmain := deliverReminders_find res (tickCollect db currentDay currentTime now nextId)
    (tickCommitState db currentDay currentTime now nextId) hnd hpre r hr
  refine ⟨fun e he => ?_, fun sid st he => ?_⟩
  · rw [check_eq_of_ne_nil db currentDay currentTime now nextId res hne]
    dsimp only
    rw [hmain, he]
    rfl
  · rw [check_eq_of_ne_nil db currentDay currentTime now nextId res hne]
    dsimp only
    rw [hmain, he]
    rfl

/-- A store with a second due medication for the same patient. -/
def exDB2 : DB :=
  { idosos := [exIdoso],
    medicamentos := [exMed, { exMed with id := "m2", nome := "Metformina" }],
    lembretes := [exLemb] }

/-- The gateway oracle failing exactly the first staged entry. -/
def exResFail : Nat → SendResult :=
  fun i => if i == 10 then SendResult.fail "boom" else SendResult.ok "SM1" "queued"

/-- The first staged reminder of the witness tick. -/
def exPS1 : PendingSend :=
  { idoso := exIdoso, medicamento := exMed,
    lembrete := mkLembreteStatus exMed "i1" 10 500 "09:00" }

/-- The second staged reminder of the witness tick. -/
def exPS2 : PendingSend :=
  { idoso := exIdoso, medicamento := { exMed with id := "m2", nome := "Metformina" },
    lembrete := mkLembreteStatus { exMed with id := "m2", nome := "Metformina" } "i1" 11 500 "09:00" }

/-- Witness for C6: with two due medications where the first delivery
fails, the first entry records `'erro'`/`"boom"` and the second still
records its gateway id. -/
theorem tick_delivery_failure_isolated_witness :
    findLembrete (checkMedicationReminders exDB2 3 "09:00" 500 10 exResFail).1.lembretes 10 =
      some { exPS1.lembrete with status := "erro", erro := some "boom" } ∧
    findLembrete (checkMedicationReminders exDB2 3 "09:00" 500 10 exResFail).1.lembretes 11 =
      some { exPS2.lembrete with twilioSid := some "SM1", twilioStatus := some "queued" } :=
  ⟨((tick_delivery_failure_isolated exDB2 3 "09:00" 500 10 exResFail (by decide))
      exPS1 (by decide)).1 "boom" rfl,
   ((tick_delivery_failure_isolated exDB2 3 "09:00" 500 10 exResFail (by decide))
      exPS2 (by decide)).2 "SM1" "queued" rfl⟩

/-! ## C9: the clock adapter never yields a weekday index -/

/-- C9 (refuting the claim): `getCurrentDayOfWeek` passes the option
value `'numeric'`, which ECMA-402 rejects, so every invocation raises a
`RangeError` instead of yielding an integer 0..6 — contradicting both
the claim and the code's own `0 = domingo` comment. -/
theorem getCurrentDayOfWeek_always_raises (fmt : String → String) :
    getCurrentDayOfWeek fmt = Except.error "RangeError" := rfl

end EnfermeiroDigital
